import Mathlib

/-!
Shallow embedding of the forward render queue
(src/Nazara/Graphics/ForwardRenderQueue.cpp) of the Nazara Engine.

Scalars are modelled as exact rationals; resource handles (materials,
buffers, textures) as structures carrying an integer identity plus the
flags the queue reads.  The std::map containers keyed by handle
comparators are modelled as association lists: the comparators only
serve to bucket submissions by key, and no claim depends on the
iteration order between distinct keys, so an association list with
decidable key equality is a faithful model of the grouping behaviour.
-/

namespace Nz

/-- A two component vector of rationals (Nz::Vector2f). -/
structure Vector2f where
  x : ℚ
  y : ℚ
deriving DecidableEq, Repr

/-- A three component vector of rationals (Nz::Vector3f). -/
structure Vector3f where
  x : ℚ
  y : ℚ
  z : ℚ
deriving DecidableEq, Repr

/-- Componentwise vector addition. -/
def Vector3f.add (a b : Vector3f) : Vector3f :=
  ⟨a.x + b.x, a.y + b.y, a.z + b.z⟩

/-- Componentwise vector subtraction. -/
def Vector3f.sub (a b : Vector3f) : Vector3f :=
  ⟨a.x - b.x, a.y - b.y, a.z - b.z⟩

/-- Scaling of a vector by a scalar. -/
def Vector3f.scale (a : Vector3f) (s : ℚ) : Vector3f :=
  ⟨a.x * s, a.y * s, a.z * s⟩

/-- Dot product of two vectors. -/
def Vector3f.dot (a b : Vector3f) : ℚ :=
  a.x * b.x + a.y * b.y + a.z * b.z

/-- Squared distance between two points (Vector3f::SquaredDistance). -/
def Vector3f.squaredDistance (a b : Vector3f) : ℚ :=
  (a.sub b).dot (a.sub b)

/-- An RGBA colour with 8-bit channels, modelled with natural number
channel values (Nz::Color). -/
structure Color where
  r : ℕ
  g : ℕ
  b : ℕ
  a : ℕ
deriving DecidableEq, Repr

/-- Color::White, opaque white. -/
def Color.white : Color := ⟨255, 255, 255, 255⟩

/-- Model of the C++ static_cast from float to UInt8 for the in-range
values used by the queue: truncation toward zero (floor for non-negative
inputs), reduced mod 256; out-of-range casts are undefined behaviour in
the source and never arise in the claims. -/
def castUInt8 (q : ℚ) : ℕ :=
  (Int.toNat ⌊q⌋) % 256

/-- An axis-aligned box (Nz::Boxf): corner position plus extents. -/
structure Boxf where
  x : ℚ
  y : ℚ
  z : ℚ
  width : ℚ
  height : ℚ
  depth : ℚ
deriving DecidableEq, Repr

/-- Modelled from the spec: Box::GetCenter (not under src/) returns the
centre of the box, corner plus half the extents. -/
def Boxf.GetCenter (b : Boxf) : Vector3f :=
  ⟨b.x + b.width / 2, b.y + b.height / 2, b.z + b.depth / 2⟩

/-- Modelled from the spec: Box::GetSquaredRadius (not under src/)
returns the squared distance from the centre to a corner, i.e. the
squared bounding radius of the box. -/
def Boxf.GetSquaredRadius (b : Boxf) : ℚ :=
  (b.width / 2) * (b.width / 2) + (b.height / 2) * (b.height / 2) +
    (b.depth / 2) * (b.depth / 2)

/-- A sphere (Nz::Spheref): centre plus a radius field.  The queue
stores the squared bounding radius in the radius field (the source
names the member squaredBoundingSphere). -/
structure Spheref where
  center : Vector3f
  radius : ℚ
deriving DecidableEq, Repr

/-- Modelled from the spec: Sphere::GetNegativeVertex (not under src/)
returns the point of the sphere furthest along the negative direction of
the given (unit) axis, the silhouette point nearest the viewer. -/
def Spheref.GetNegativeVertex (s : Spheref) (normal : Vector3f) : Vector3f :=
  s.center.sub (normal.scale s.radius)

/-- Modelled from the spec: Box::GetSquaredBoundingSphere (not under
src/) wraps the centre and squared radius into a sphere value. -/
def Boxf.GetSquaredBoundingSphere (b : Boxf) : Spheref :=
  ⟨b.GetCenter, b.GetSquaredRadius⟩

/-- A plane (Nz::Planef) as a normal and a signed offset. -/
structure Planef where
  normal : Vector3f
  distance : ℚ
deriving DecidableEq, Repr

/-- Modelled from the spec: Plane::Distance (not under src/) evaluates
the plane equation at a point, giving the signed distance for a unit
normal. -/
def Planef.Distance (p : Planef) (point : Vector3f) : ℚ :=
  p.normal.dot point + p.distance

/-- A 4x4 transformation matrix (Nz::Matrix4f), row major; the queue
only ever reads its translation row but stores the whole matrix per
instance. -/
structure Matrix4f where
  m11 : ℚ
  m12 : ℚ
  m13 : ℚ
  m14 : ℚ
  m21 : ℚ
  m22 : ℚ
  m23 : ℚ
  m24 : ℚ
  m31 : ℚ
  m32 : ℚ
  m33 : ℚ
  m34 : ℚ
  m41 : ℚ
  m42 : ℚ
  m43 : ℚ
  m44 : ℚ
deriving DecidableEq, Repr

/-- The identity matrix, used to build concrete inputs. -/
def Matrix4f.identity : Matrix4f :=
  ⟨1, 0, 0, 0, 0, 1, 0, 0, 0, 0, 1, 0, 0, 0, 0, 1⟩

/-- Modelled from the spec: Matrix4::GetTranslation (not under src/)
returns the translation components of the matrix. -/
def Matrix4f.GetTranslation (m : Matrix4f) : Vector3f :=
  ⟨m.m41, m.m42, m.m43⟩

/-- A translation matrix, used to build concrete inputs. -/
def Matrix4f.translation (v : Vector3f) : Matrix4f :=
  ⟨1, 0, 0, 0, 0, 1, 0, 0, 0, 0, 1, 0, v.x, v.y, v.z, 1⟩

/-- A material handle: an identity plus the flags the queue reads
(Material::IsEnabled(RendererParameter_Blend) and
Material::IsDepthSortingEnabled).  External resource, not owned by the
queue. -/
structure Material where
  id : ℕ
  blendEnabled : Bool
  depthSortingEnabled : Bool
deriving DecidableEq, Repr

/-- A texture handle, by identity. -/
structure Texture where
  id : ℕ
deriving DecidableEq, Repr

/-- Mesh data (Nz::MeshData): optional index buffer, vertex buffer and
primitive mode, each buffer by identity. -/
structure MeshData where
  indexBuffer : Option ℕ
  vertexBuffer : ℕ
  primitiveMode : ℕ
deriving DecidableEq, Repr

/-- Association list lookup: value of the first entry with the given
key, modelling std::map::find. -/
def findA {κ ν : Type} [DecidableEq κ] (m : List (κ × ν)) (k : κ) : Option ν :=
  match m with
  | [] => none
  | (k1, v) :: rest => if k1 = k then some v else findA rest k

/-- Association list upsert, modelling the find / insert-if-absent /
mutate-the-entry pattern of the source: the first entry with the given
key is replaced by f of its value; if the key is absent, (k, f d) is
appended, d being the freshly constructed entry the source inserts
before mutating it. -/
def upsertA {κ ν : Type} [DecidableEq κ] (k : κ) (d : ν) (f : ν → ν) :
    List (κ × ν) → List (κ × ν)
  | [] => [(k, f d)]
  | (k1, v) :: rest =>
      if k1 = k then (k1, f v) :: rest else (k1, v) :: upsertA k d f rest

/-- Association list erase, modelling std::map::erase(key): every entry
with the given key is removed. -/
def eraseA {κ ν : Type} [DecidableEq κ] (m : List (κ × ν)) (k : κ) :
    List (κ × ν) :=
  match m with
  | [] => []
  | (k1, v) :: rest => if k1 = k then eraseA rest k else (k1, v) :: eraseA rest k

/-- Apply a function to every value of an association list, keys
unchanged. -/
def mapValsA {κ ν : Type} (f : ν → ν) (m : List (κ × ν)) : List (κ × ν) :=
  m.map (fun kv => (kv.1, f kv.2))

/-- Modelled from the spec: the fixed minimum-instances-for-batching
threshold NAZARA_GRAPHICS_INSTANCING_MIN_INSTANCES_COUNT; the macro is
defined in a configuration header not under src/, the spec only calls it
a fixed threshold, and the engine default is 100. -/
def instancingMinInstancesCount : ℕ := 100

/-- Per-mesh entry of an opaque batch (MeshInstanceEntry): instance
transforms, a bounding sphere holding the squared radius, and the
buffer release subscriptions (modelled as connected flags). -/
structure MeshInstanceEntry where
  instances : List Matrix4f
  squaredBoundingSphere : Spheref
  indexBufferReleaseSlot : Bool
  vertexBufferReleaseSlot : Bool
deriving DecidableEq, Repr

/-- Per-material opaque batch entry (BatchedModelEntry). -/
structure BatchedModelEntry where
  enabled : Bool
  instancingEnabled : Bool
  meshMap : List (MeshData × MeshInstanceEntry)
  materialReleaseSlot : Bool
deriving DecidableEq, Repr

/-- A freshly constructed BatchedModelEntry, with the material release
slot connected as AddMesh does on creation. -/
def BatchedModelEntry.new : BatchedModelEntry :=
  ⟨false, false, [], true⟩

/-- One transparent submission (TransparentModelData). -/
structure TransparentModelData where
  material : Material
  meshData : MeshData
  squaredBoundingSphere : Spheref
  transformMatrix : Matrix4f
deriving DecidableEq, Repr

/-- A sprite chain (SpriteChain_XYZ_Color_UV): a vertex run reference
(by identity) and a sprite count. -/
structure SpriteChain where
  vertices : ℕ
  spriteCount : ℕ
deriving DecidableEq, Repr

/-- Per-overlay-texture sprite bucket (BatchedSpriteEntry). -/
structure BatchedSpriteEntry where
  spriteChains : List SpriteChain
  textureReleaseSlot : Bool
deriving DecidableEq, Repr

/-- Per-material sprite batch entry (BatchedBasicSpriteEntry); the
overlay map is keyed by an optional texture, the null overlay being a
legal key. -/
structure BatchedBasicSpriteEntry where
  enabled : Bool
  overlayMap : List (Option Texture × BatchedSpriteEntry)
  materialReleaseSlot : Bool
deriving DecidableEq, Repr

/-- One billboard (BillboardData). -/
structure BillboardData where
  color : Color
  center : Vector3f
  size : Vector2f
  sinCos : Vector2f
deriving DecidableEq, Repr

/-- Per-material billboard batch entry (BatchedBillboardEntry). -/
structure BatchedBillboardEntry where
  billboards : List BillboardData
  materialReleaseSlot : Bool
deriving DecidableEq, Repr

/-- A freshly constructed BatchedBillboardEntry, material release slot
connected. -/
def BatchedBillboardEntry.new : BatchedBillboardEntry :=
  ⟨[], true⟩

/-- A render layer (ForwardRenderQueue::Layer). -/
structure Layer where
  opaqueModels : List (Material × BatchedModelEntry)
  basicSprites : List (Material × BatchedBasicSpriteEntry)
  billboards : List (Material × BatchedBillboardEntry)
  otherDrawables : List ℕ
  transparentModels : List ℕ
  transparentModelData : List TransparentModelData
  clearCount : ℕ
deriving DecidableEq, Repr

/-- A freshly constructed Layer. -/
def Layer.new : Layer :=
  ⟨[], [], [], [], [], [], 0⟩

/-- The queue state: the sparse layer registry, keyed by render order. -/
structure ForwardRenderQueue where
  layers : List (Int × Layer)
deriving DecidableEq, Repr

/-- The empty queue. -/
def ForwardRenderQueue.empty : ForwardRenderQueue := ⟨[]⟩

/-- The viewer interface consumed by Sort (AbstractViewer): near plane
of the frustum, eye position, forward direction. -/
structure Viewer where
  nearPlane : Planef
  eyePosition : Vector3f
  forward : Vector3f
deriving DecidableEq, Repr

/-- GetLayer combined with the body acting on the layer: the layer for
the given render order is looked up (created if absent) with its
clearCount reset to 0, then the body f is applied to it.  Every Add
operation of the source goes through this path. -/
def withLayer (q : ForwardRenderQueue) (renderOrder : Int) (f : Layer → Layer) :
    ForwardRenderQueue :=
  ⟨upsertA renderOrder Layer.new (fun l => f { l with clearCount := 0 }) q.layers⟩

/-- Lookup of a layer by render order. -/
def ForwardRenderQueue.findLayer (q : ForwardRenderQueue) (k : Int) :
    Option Layer :=
  findA q.layers k

/-- Lookup of a layer, defaulting to a fresh layer when absent; used to
state theorems about the contents of a layer. -/
def ForwardRenderQueue.getLayerD (q : ForwardRenderQueue) (k : Int) : Layer :=
  (findA q.layers k).getD Layer.new

/-- ForwardRenderQueue::AddBillboard: appends one billboard to the
billboard batch of the material, creating the batch (and connecting its
material release slot) when absent. -/
def addBillboard (q : ForwardRenderQueue) (renderOrder : Int)
    (material : Material) (position : Vector3f) (size : Vector2f)
    (sinCos : Vector2f) (color : Color) : ForwardRenderQueue :=
  withLayer q renderOrder (fun layer =>
    { layer with
      billboards := upsertA material BatchedBillboardEntry.new
        (fun e => { e with
          billboards := e.billboards ++ [⟨color, position, size, sinCos⟩] })
        layer.billboards })

/-- The billboard entries produced by the copy loop shared by the
AddBillboards overloads taking a sin/cos rotation array and a colour
array: input arrays are modelled as functions from the item index; a
null array pointer is an absent function, replaced by the stride-zero
pointer to the documented default in the source. -/
def billboardRangeSinCosColor (count : ℕ) (positionPtr : ℕ → Vector3f)
    (sizePtr : ℕ → Vector2f) (sinCosPtr : Option (ℕ → Vector2f))
    (colorPtr : Option (ℕ → Color)) : List BillboardData :=
  let sinCosF := sinCosPtr.getD (fun _ => ⟨0, 1⟩)
  let colorF := colorPtr.getD (fun _ => Color.white)
  (List.range count).map (fun i =>
    ⟨colorF i, positionPtr i, sizePtr i, sinCosF i⟩)

/-- The billboard entries produced by the copy loop of the
AddBillboards overload taking a sin/cos rotation array and an alpha
array: the colour of each entry is white with alpha the UInt8 cast of
255 times the alpha value (default 1 when the alpha pointer is null). -/
def billboardRangeSinCosAlpha (count : ℕ) (positionPtr : ℕ → Vector3f)
    (sizePtr : ℕ → Vector2f) (sinCosPtr : Option (ℕ → Vector2f))
    (alphaPtr : Option (ℕ → ℚ)) : List BillboardData :=
  let sinCosF := sinCosPtr.getD (fun _ => ⟨0, 1⟩)
  let alphaF := alphaPtr.getD (fun _ => 1)
  (List.range count).map (fun i =>
    ⟨⟨255, 255, 255, castUInt8 (255 * alphaF i)⟩,
      positionPtr i, sizePtr i, sinCosF i⟩)

/-- GetBillboardData combined with a copy loop writing the given
entries: the billboard batch of the material is created when absent
(material release slot connected), its vector grown by the entries. -/
def appendBillboards (q : ForwardRenderQueue) (renderOrder : Int)
    (material : Material) (entries : List BillboardData) :
    ForwardRenderQueue :=
  withLayer q renderOrder (fun layer =>
    { layer with
      billboards := upsertA material BatchedBillboardEntry.new
        (fun e => { e with billboards := e.billboards ++ entries })
        layer.billboards })

/-- ForwardRenderQueue::AddBillboards, overload with sin/cos rotation
and colour arrays (source lines 68-89). -/
def addBillboardsSinCosColor (q : ForwardRenderQueue) (renderOrder : Int)
    (material : Material) (count : ℕ) (positionPtr : ℕ → Vector3f)
    (sizePtr : ℕ → Vector2f) (sinCosPtr : Option (ℕ → Vector2f))
    (colorPtr : Option (ℕ → Color)) : ForwardRenderQueue :=
  appendBillboards q renderOrder material
    (billboardRangeSinCosColor count positionPtr sizePtr sinCosPtr colorPtr)

/-- ForwardRenderQueue::AddBillboards, overload with sin/cos rotation
and alpha arrays (source lines 105-128). -/
def addBillboardsSinCosAlpha (q : ForwardRenderQueue) (renderOrder : Int)
    (material : Material) (count : ℕ) (positionPtr : ℕ → Vector3f)
    (sizePtr : ℕ → Vector2f) (sinCosPtr : Option (ℕ → Vector2f))
    (alphaPtr : Option (ℕ → ℚ)) : ForwardRenderQueue :=
  appendBillboards q renderOrder material
    (billboardRangeSinCosAlpha count positionPtr sizePtr sinCosPtr alphaPtr)

/-- ForwardRenderQueue::AddDrawable: a null drawable is reported and
ignored, otherwise the drawable is appended to the custom drawable list
of the layer. -/
def addDrawable (q : ForwardRenderQueue) (renderOrder : Int)
    (drawable : Option ℕ) : ForwardRenderQueue :=
  match drawable with
  | none => q
  | some d =>
      withLayer q renderOrder (fun layer =>
        { layer with otherDrawables := layer.otherDrawables ++ [d] })

/-- A freshly constructed MeshInstanceEntry as AddMesh builds it: the
bounding sphere of the mesh AABB (radius field holding the squared
radius), buffer release slots connected (the index buffer slot only
when an index buffer is present). -/
def MeshInstanceEntry.new (meshData : MeshData) (meshAABB : Boxf) :
    MeshInstanceEntry :=
  ⟨[], meshAABB.GetSquaredBoundingSphere, meshData.indexBuffer.isSome, true⟩

/-- The mutation AddMesh applies to the opaque batch entry of the
material: the entry is enabled, the transform is pushed onto the
instance list of the mesh entry (created when absent), and instancing
is enabled once the instance list of that mesh entry reaches the
minimum instance count. -/
def addMeshToModelEntry (meshData : MeshData) (meshAABB : Boxf)
    (transformMatrix : Matrix4f) (e : BatchedModelEntry) :
    BatchedModelEntry :=
  let meshMap1 := upsertA meshData (MeshInstanceEntry.new meshData meshAABB)
    (fun ie => { ie with instances := ie.instances ++ [transformMatrix] })
    e.meshMap
  let instanceCount :=
    match findA meshMap1 meshData with
    | some ie => ie.instances.length
    | none => 0
  { e with
    enabled := true
    meshMap := meshMap1
    instancingEnabled :=
      e.instancingEnabled || decide (instancingMinInstancesCount ≤ instanceCount) }

/-- ForwardRenderQueue::AddMesh: an alpha-blending material goes to the
transparent lists (index list plus data list, bounding sphere centred
at the matrix translation plus the AABB centre, radius field the
squared radius of the AABB), any other material to the opaque batch of
(material, meshData). -/
def addMesh (q : ForwardRenderQueue) (renderOrder : Int) (material : Material)
    (meshData : MeshData) (meshAABB : Boxf) (transformMatrix : Matrix4f) :
    ForwardRenderQueue :=
  if material.blendEnabled then
    withLayer q renderOrder (fun layer =>
      let index := layer.transparentModelData.length
      { layer with
        transparentModelData := layer.transparentModelData ++
          [⟨material, meshData,
            ⟨(transformMatrix.GetTranslation).add meshAABB.GetCenter,
              meshAABB.GetSquaredRadius⟩,
            transformMatrix⟩]
        transparentModels := layer.transparentModels ++ [index] })
  else
    withLayer q renderOrder (fun layer =>
      { layer with
        opaqueModels := upsertA material BatchedModelEntry.new
          (addMeshToModelEntry meshData meshAABB transformMatrix)
          layer.opaqueModels })

/-- ForwardRenderQueue::AddSprites: the (material, overlay) bucket is
created when absent (material release slot on the material entry,
texture release slot on the overlay entry only for a non-null overlay)
and the vertex chain is appended to it. -/
def addSprites (q : ForwardRenderQueue) (renderOrder : Int)
    (material : Material) (vertices : ℕ) (spriteCount : ℕ)
    (overlay : Option Texture) : ForwardRenderQueue :=
  withLayer q renderOrder (fun layer =>
    { layer with
      basicSprites := upsertA material ⟨false, [], true⟩
        (fun e => { e with
          enabled := true
          overlayMap := upsertA overlay ⟨[], overlay.isSome⟩
            (fun oe => { oe with
              spriteChains := oe.spriteChains ++ [⟨vertices, spriteCount⟩] })
            e.overlayMap })
        layer.basicSprites })

/-- The lightweight per-frame reset of a layer performed by
Clear(false): transient lists emptied, clearCount incremented
(post-increment in the source), persistent batch maps untouched. -/
def Layer.lightClear (layer : Layer) : Layer :=
  { layer with
    otherDrawables := []
    transparentModels := []
    transparentModelData := []
    clearCount := layer.clearCount + 1 }

/-- The layer sweep of Clear(false): a layer whose clearCount has
reached 100 is erased from the registry, the others are lightweight
cleared. -/
def clearLayers : List (Int × Layer) → List (Int × Layer)
  | [] => []
  | (k, layer) :: rest =>
      if 100 ≤ layer.clearCount then clearLayers rest
      else (k, layer.lightClear) :: clearLayers rest

/-- ForwardRenderQueue::Clear: fully drops the whole registry,
otherwise the lightweight sweep runs. -/
def clear (q : ForwardRenderQueue) (fully : Bool) : ForwardRenderQueue :=
  if fully then ⟨[]⟩ else ⟨clearLayers q.layers⟩

/-- The sort key of a transparent submission index: the signed distance
from the near plane to the negative vertex of the bounding sphere of
the entry with respect to the forward direction of the viewer. -/
def transparentSortKey (viewer : Viewer) (data : List TransparentModelData)
    (index : ℕ) : ℚ :=
  viewer.nearPlane.Distance
    ((data.getD index
        ⟨⟨0, false, false⟩, ⟨none, 0, 0⟩, ⟨⟨0, 0, 0⟩, 0⟩, Matrix4f.identity⟩
      ).squaredBoundingSphere.GetNegativeVertex viewer.forward)

/-- The transparent comparator of Sort as a non-strict relation: the
source sorts with the strict comparator distance1 > distance2 via
std::sort, which guarantees a permutation ordered by the induced
non-strict key order; the model realises it with an insertion sort. -/
def transparentBefore (viewer : Viewer) (data : List TransparentModelData)
    (i j : ℕ) : Prop :=
  transparentSortKey viewer data j ≤ transparentSortKey viewer data i

instance (viewer : Viewer) (data : List TransparentModelData) :
    DecidableRel (transparentBefore viewer data) :=
  fun i j => inferInstanceAs
    (Decidable (transparentSortKey viewer data j ≤ transparentSortKey viewer data i))

/-- The billboard comparator of Sort as a non-strict relation:
descending squared distance from the eye position to the centre. -/
def billboardBefore (viewer : Viewer) (d1 d2 : BillboardData) : Prop :=
  viewer.eyePosition.squaredDistance d2.center ≤
    viewer.eyePosition.squaredDistance d1.center

instance (viewer : Viewer) : DecidableRel (billboardBefore viewer) :=
  fun d1 d2 => inferInstanceAs
    (Decidable (viewer.eyePosition.squaredDistance d2.center ≤
      viewer.eyePosition.squaredDistance d1.center))

/-- The billboard pass of Sort on one batch: a batch whose material has
depth sorting enabled gets its billboard vector sorted far to near, any
other batch is left untouched. -/
def sortBillboardBatch (viewer : Viewer)
    (me : Material × BatchedBillboardEntry) :
    Material × BatchedBillboardEntry :=
  if me.1.depthSortingEnabled then
    (me.1, { me.2 with
      billboards := List.insertionSort (billboardBefore viewer) me.2.billboards })
  else me

/-- The per-layer work of ForwardRenderQueue::Sort: the transparent
index list is sorted far to near, and the billboard vector of every
batch whose material has depth sorting enabled is sorted far to near;
all other contents are untouched. -/
def Layer.sortLayer (viewer : Viewer) (layer : Layer) : Layer :=
  { layer with
    transparentModels :=
      List.insertionSort (transparentBefore viewer layer.transparentModelData)
        layer.transparentModels
    billboards := layer.billboards.map (sortBillboardBatch viewer) }

/-- ForwardRenderQueue::Sort over every layer of the registry. -/
def sortQueue (viewer : Viewer) (q : ForwardRenderQueue) :
    ForwardRenderQueue :=
  ⟨mapValsA (Layer.sortLayer viewer) q.layers⟩

/-- ForwardRenderQueue::OnMaterialInvalidation: the material is erased
from the sprite, billboard and opaque batch maps of every layer. -/
def onMaterialInvalidation (q : ForwardRenderQueue) (material : Material) :
    ForwardRenderQueue :=
  ⟨mapValsA (fun layer =>
    { layer with
      basicSprites := eraseA layer.basicSprites material
      billboards := eraseA layer.billboards material
      opaqueModels := eraseA layer.opaqueModels material }) q.layers⟩

/-- ForwardRenderQueue::OnTextureInvalidation: the overlay bucket of
the texture is erased from every sprite batch of every layer. -/
def onTextureInvalidation (q : ForwardRenderQueue) (texture : Texture) :
    ForwardRenderQueue :=
  ⟨mapValsA (fun layer =>
    { layer with
      basicSprites := mapValsA (fun e =>
        { e with overlayMap := eraseA e.overlayMap (some texture) })
        layer.basicSprites }) q.layers⟩

/-- ForwardRenderQueue::OnIndexBufferInvalidation: every mesh entry
whose mesh data references the index buffer is erased from every
opaque batch of every layer. -/
def onIndexBufferInvalidation (q : ForwardRenderQueue) (indexBuffer : ℕ) :
    ForwardRenderQueue :=
  ⟨mapValsA (fun layer =>
    { layer with
      opaqueModels := mapValsA (fun e =>
        { e with
          meshMap := e.meshMap.filter
            (fun kv => kv.1.indexBuffer ≠ some indexBuffer) })
        layer.opaqueModels }) q.layers⟩

/-- ForwardRenderQueue::OnVertexBufferInvalidation: every mesh entry
whose mesh data references the vertex buffer is erased from every
opaque batch of every layer. -/
def onVertexBufferInvalidation (q : ForwardRenderQueue) (vertexBuffer : ℕ) :
    ForwardRenderQueue :=
  ⟨mapValsA (fun layer =>
    { layer with
      opaqueModels := mapValsA (fun e =>
        { e with
          meshMap := e.meshMap.filter
            (fun kv => kv.1.vertexBuffer ≠ vertexBuffer) })
        layer.opaqueModels }) q.layers⟩


/-! ## General lemmas about the association list operations -/

theorem findA_eraseA_self {κ ν : Type} [DecidableEq κ]
    (m : List (κ × ν)) (k : κ) : findA (eraseA m k) k = none := by
  induction m with
  | nil => rfl
  | cons kv rest ih =>
      cases kv with
      | mk k1 v =>
          by_cases h : k1 = k
          · simpa [eraseA, h] using ih
          · simpa [eraseA, findA, h] using ih

theorem findA_eraseA_ne {κ ν : Type} [DecidableEq κ]
    (m : List (κ × ν)) (k k' : κ) (h : k' ≠ k) :
    findA (eraseA m k) k' = findA m k' := by
  have hkk : k ≠ k' := Ne.symm h
  induction m with
  | nil => rfl
  | cons kv rest ih =>
      cases kv with
      | mk k1 v =>
          by_cases h1 : k1 = k
          · simp [eraseA, findA, h1, hkk, ih]
          · by_cases h2 : k1 = k'
            · simp [eraseA, findA, h1, h2, h]
            · simp [eraseA, findA, h1, h2, ih]

theorem findA_upsertA_self {κ ν : Type} [DecidableEq κ]
    (m : List (κ × ν)) (k : κ) (d : ν) (f : ν → ν) :
    findA (upsertA k d f m) k = some (f ((findA m k).getD d)) := by
  induction m with
  | nil => simp [upsertA, findA]
  | cons kv rest ih =>
      cases kv with
      | mk k1 v =>
          by_cases h : k1 = k
          · simp [upsertA, findA, h]
          · simp [upsertA, findA, h, ih]

theorem findA_upsertA_ne {κ ν : Type} [DecidableEq κ]
    (m : List (κ × ν)) (k k' : κ) (d : ν) (f : ν → ν) (h : k' ≠ k) :
    findA (upsertA k d f m) k' = findA m k' := by
  have hkk : k ≠ k' := Ne.symm h
  induction m with
  | nil => simp [upsertA, findA, hkk]
  | cons kv rest ih =>
      cases kv with
      | mk k1 v =>
          by_cases h1 : k1 = k
          · subst h1
            simp [upsertA, findA, hkk]
          · by_cases h2 : k1 = k'
            · simp [upsertA, findA, h1, h2, h]
            · simp [upsertA, findA, h1, h2, ih]

theorem findA_mapValsA {κ ν : Type} [DecidableEq κ]
    (f : ν → ν) (m : List (κ × ν)) (k : κ) :
    findA (mapValsA f m) k = (findA m k).map f := by
  induction m with
  | nil => rfl
  | cons kv rest ih =>
      cases kv with
      | mk k1 v =>
          by_cases h : k1 = k
          · simp [mapValsA, findA, h]
          · simp only [mapValsA, List.map, findA, h, if_neg h] at ih ⊢
            exact ih

theorem mem_upsertA {κ ν : Type} [DecidableEq κ]
    {m : List (κ × ν)} {k : κ} {d : ν} {f : ν → ν} {x : κ × ν}
    (hx : x ∈ upsertA k d f m) :
    x ∈ m ∨ x = (k, f ((findA m k).getD d)) := by
  induction m with
  | nil =>
      simp [upsertA] at hx
      exact Or.inr (by simp [hx, findA])
  | cons kv rest ih =>
      cases kv with
      | mk k1 v1 =>
          by_cases h : k1 = k
          · subst h
            simp only [upsertA, if_pos rfl] at hx
            rcases List.mem_cons.mp hx with h1 | h1
            · refine Or.inr ?_
              rw [h1]
              simp [findA]
            · exact Or.inl (List.mem_cons_of_mem _ h1)
          · simp only [upsertA, if_neg h] at hx
            rcases List.mem_cons.mp hx with h1 | h1
            · exact Or.inl (List.mem_cons.mpr (Or.inl h1))
            · rcases ih h1 with h2 | h2
              · exact Or.inl (List.mem_cons_of_mem _ h2)
              · refine Or.inr ?_
                rw [h2]
                simp [findA, h]

theorem exists_mem_upsertA_of_mem {κ ν : Type} [DecidableEq κ]
    {m : List (κ × ν)} {k : κ} {d : ν} {f : ν → ν} {x : κ × ν}
    (hx : x ∈ m) :
    ∃ y ∈ upsertA k d f m, y.1 = x.1 ∧ (y.2 = x.2 ∨ y.2 = f x.2) := by
  induction m with
  | nil => exact absurd hx (List.not_mem_nil x)
  | cons kv rest ih =>
      cases kv with
      | mk k1 v1 =>
          by_cases h : k1 = k
          · subst h
            simp only [upsertA, if_pos rfl]
            rcases List.mem_cons.mp hx with h1 | h1
            · exact ⟨(k1, f v1), List.mem_cons_self _ _, by rw [h1],
                Or.inr (by rw [h1])⟩
            · exact ⟨x, List.mem_cons_of_mem _ h1, rfl, Or.inl rfl⟩
          · simp only [upsertA, if_neg h]
            rcases List.mem_cons.mp hx with h1 | h1
            · exact ⟨(k1, v1), List.mem_cons_self _ _, by rw [h1],
                Or.inl (by rw [h1])⟩
            · rcases ih h1 with ⟨y, hy, hk, hv⟩
              exact ⟨y, List.mem_cons_of_mem _ hy, hk, hv⟩

theorem findA_mem {κ ν : Type} [DecidableEq κ]
    {m : List (κ × ν)} {k : κ} {v : ν} (h : findA m k = some v) :
    (k, v) ∈ m := by
  induction m with
  | nil => exact absurd h (by simp [findA])
  | cons kv rest ih =>
      cases kv with
      | mk k1 v1 =>
          by_cases h1 : k1 = k
          · subst h1
            have hv : v1 = v := by simpa [findA] using h
            rw [← hv]
            exact List.mem_cons_self _ _
          · have h2 : findA rest k = some v := by simpa [findA, h1] using h
            exact List.mem_cons_of_mem _ (ih h2)

/-! ## Ordering instances for the sort comparators -/

instance (viewer : Viewer) (data : List TransparentModelData) :
    IsTotal ℕ (transparentBefore viewer data) :=
  ⟨fun i j => le_total (transparentSortKey viewer data j)
    (transparentSortKey viewer data i)⟩

instance (viewer : Viewer) (data : List TransparentModelData) :
    IsTrans ℕ (transparentBefore viewer data) :=
  ⟨fun _ _ _ h1 h2 => le_trans h2 h1⟩

instance (viewer : Viewer) : IsTotal BillboardData (billboardBefore viewer) :=
  ⟨fun d1 d2 => le_total (viewer.eyePosition.squaredDistance d2.center)
    (viewer.eyePosition.squaredDistance d1.center)⟩

instance (viewer : Viewer) : IsTrans BillboardData (billboardBefore viewer) :=
  ⟨fun _ _ _ h1 h2 => le_trans h2 h1⟩

/-! ## Facts about the per-layer sort -/

theorem sortLayer_transparentModelData (viewer : Viewer) (layer : Layer) :
    (layer.sortLayer viewer).transparentModelData =
      layer.transparentModelData := rfl

theorem sortLayer_transparentModels_sorted (viewer : Viewer) (layer : Layer) :
    ((layer.sortLayer viewer).transparentModels).Sorted
      (transparentBefore viewer layer.transparentModelData) :=
  List.sorted_insertionSort _ _

theorem sortLayer_opaqueModels (viewer : Viewer) (layer : Layer) :
    (layer.sortLayer viewer).opaqueModels = layer.opaqueModels := rfl

theorem sortLayer_basicSprites (viewer : Viewer) (layer : Layer) :
    (layer.sortLayer viewer).basicSprites = layer.basicSprites := rfl

theorem sortBillboardBatch_of_depth (viewer : Viewer)
    (me : Material × BatchedBillboardEntry)
    (h : me.1.depthSortingEnabled = true) :
    sortBillboardBatch viewer me =
      (me.1, { me.2 with
        billboards := List.insertionSort (billboardBefore viewer) me.2.billboards }) := by
  simp [sortBillboardBatch, h]

theorem sortBillboardBatch_of_no_depth (viewer : Viewer)
    (me : Material × BatchedBillboardEntry)
    (h : me.1.depthSortingEnabled = false) :
    sortBillboardBatch viewer me = me := by
  simp [sortBillboardBatch, h]

theorem sortLayer_billboards_depth_sorted (viewer : Viewer) (layer : Layer)
    {me : Material × BatchedBillboardEntry}
    (hme : me ∈ (layer.sortLayer viewer).billboards)
    (hd : me.1.depthSortingEnabled = true) :
    me.2.billboards.Sorted (billboardBefore viewer) := by
  rcases List.mem_map.mp hme with ⟨me0, _, hmap⟩
  cases h0 : me0.1.depthSortingEnabled with
  | true =>
      rw [sortBillboardBatch_of_depth viewer me0 h0] at hmap
      rw [← hmap]
      exact List.sorted_insertionSort _ _
  | false =>
      rw [sortBillboardBatch_of_no_depth viewer me0 h0] at hmap
      rw [← hmap] at hd
      rw [h0] at hd
      exact Bool.noConfusion hd

theorem sortLayer_billboards_no_depth (viewer : Viewer) (layer : Layer)
    (mat : Material) (hd : mat.depthSortingEnabled = false) :
    findA (layer.sortLayer viewer).billboards mat =
      findA layer.billboards mat := by
  show findA (layer.billboards.map (sortBillboardBatch viewer)) mat =
    findA layer.billboards mat
  induction layer.billboards with
  | nil => rfl
  | cons me rest ih =>
      rw [List.map_cons]
      cases h0 : me.1.depthSortingEnabled with
      | true =>
          have hne : me.1 ≠ mat := by
            intro h
            rw [h, hd] at h0
            exact Bool.noConfusion h0
          rw [sortBillboardBatch_of_depth viewer me h0]
          cases me with
          | mk k1 v1 =>
              simp only [findA] at *
              simp only [if_neg hne]
              rw [ih]
      | false =>
          rw [sortBillboardBatch_of_no_depth viewer me h0]
          cases me with
          | mk k1 v1 =>
              simp only [findA]
              by_cases h1 : k1 = mat
              · simp [h1]
              · simp only [if_neg h1]
                exact ih

/-! ## Concrete sample inputs used by witnesses and counterexamples -/

/-- An alpha-blending material. -/
def sampleTransparentMaterial : Material := ⟨1, true, false⟩

/-- A billboard material with depth sorting enabled. -/
def sampleDepthMaterial : Material := ⟨2, false, true⟩

/-- A billboard material without depth sorting. -/
def samplePlainMaterial : Material := ⟨3, false, false⟩

/-- A mesh with no index buffer. -/
def sampleMeshData : MeshData := ⟨none, 1, 0⟩

/-- A degenerate box at the origin: centre (0,0,0), squared radius 0. -/
def pointBox : Boxf := ⟨0, 0, 0, 0, 0, 0⟩

/-- A translation along the z axis. -/
def translateZ (z : ℚ) : Matrix4f := Matrix4f.translation ⟨0, 0, z⟩

/-- A viewer at the origin looking along +z, near plane z = 0: the
signed near-plane distance of a point is its z coordinate. -/
def sampleViewer : Viewer := ⟨⟨⟨0, 0, 1⟩, 0⟩, ⟨0, 0, 0⟩, ⟨0, 0, 1⟩⟩

/-- Three transparent submissions at near-plane distances 10, 5 and 20. -/
def sampleQueue3 : ForwardRenderQueue :=
  addMesh
    (addMesh
      (addMesh ForwardRenderQueue.empty 0 sampleTransparentMaterial
        sampleMeshData pointBox (translateZ 10))
      0 sampleTransparentMaterial sampleMeshData pointBox (translateZ 5))
    0 sampleTransparentMaterial sampleMeshData pointBox (translateZ 20)

/-- Billboards at z = 1 and z = 5 on a depth-sorting material and one
billboard at z = 2 on a material without depth sorting. -/
def sampleBillboardQueue : ForwardRenderQueue :=
  addBillboard
    (addBillboard
      (addBillboard ForwardRenderQueue.empty 0 sampleDepthMaterial
        ⟨0, 0, 1⟩ ⟨1, 1⟩ ⟨0, 1⟩ Color.white)
      0 sampleDepthMaterial ⟨0, 0, 5⟩ ⟨1, 1⟩ ⟨0, 1⟩ Color.white)
    0 samplePlainMaterial ⟨0, 0, 2⟩ ⟨1, 1⟩ ⟨0, 1⟩ Color.white

/-! ## Claim theorems -/

unseal Rat.add Rat.mul Rat.sub Rat.inv

/-! ## C1 -/

/-- C1: for every layer, immediately after Sort(viewer), the layer
transparent list is ordered by descending signed distance from the
viewer near plane to each entry bounding sphere negative vertex
relative to the forward direction (far to near); in particular, three
transparent submissions at near-plane distances 10, 5, 20 are yielded
in order [20, 10, 5]. -/
theorem sort_orders_transparent_far_to_near :
    (∀ (viewer : Viewer) (q : ForwardRenderQueue) (k : Int) (L : Layer),
        (sortQueue viewer q).findLayer k = some L →
        L.transparentModels.Sorted
          (transparentBefore viewer L.transparentModelData))
    ∧ ((sortQueue sampleViewer sampleQueue3).getLayerD 0).transparentModels.map
        (transparentSortKey sampleViewer
          (((sortQueue sampleViewer sampleQueue3).getLayerD 0).transparentModelData))
        = [20, 10, 5] := by
  constructor
  · intro viewer q k L hL
    unfold sortQueue ForwardRenderQueue.findLayer at hL
    rw [findA_mapValsA] at hL
    cases hf : findA q.layers k with
    | none =>
        rw [hf] at hL
        exact absurd hL (by simp)
    | some L0 =>
        rw [hf] at hL
        obtain rfl : L = L0.sortLayer viewer := by
          simpa using hL.symm
        rw [sortLayer_transparentModelData]
        exact sortLayer_transparentModels_sorted viewer L0
  · decide

/-- Witness for C1: the sorted three-submission layer is ordered far
to near. -/
theorem sort_orders_transparent_far_to_near_witness :
    ((sortQueue sampleViewer sampleQueue3).getLayerD 0).transparentModels.Sorted
      (transparentBefore sampleViewer
        (((sortQueue sampleViewer sampleQueue3).getLayerD 0).transparentModelData)) :=
  sort_orders_transparent_far_to_near.1 sampleViewer sampleQueue3 0
    ((sortQueue sampleViewer sampleQueue3).getLayerD 0) (by decide)

/-! ## C7 -/

/-- C7: after Sort(viewer), in every layer every billboard batch whose
material has depth sorting enabled is ordered by descending squared
distance from the viewer eye position to each billboard centre, and
every billboard batch whose material does not request depth sorting
keeps its entries unchanged. -/
theorem sort_billboards_by_depth :
    ∀ (viewer : Viewer) (q : ForwardRenderQueue) (k : Int) (L0 : Layer),
      q.findLayer k = some L0 →
      ∃ L, (sortQueue viewer q).findLayer k = some L ∧
        (∀ me ∈ L.billboards, me.1.depthSortingEnabled = true →
          me.2.billboards.Sorted (billboardBefore viewer)) ∧
        (∀ mat : Material, mat.depthSortingEnabled = false →
          findA L.billboards mat = findA L0.billboards mat) := by
  intro viewer q k L0 h0
  refine ⟨L0.sortLayer viewer, ?_, ?_, ?_⟩
  · unfold sortQueue ForwardRenderQueue.findLayer
    rw [findA_mapValsA]
    unfold ForwardRenderQueue.findLayer at h0
    rw [h0]
    rfl
  · intro me hme hd
    exact sortLayer_billboards_depth_sorted viewer L0 hme hd
  · intro mat hd
    exact sortLayer_billboards_no_depth viewer L0 mat hd

/-- Witness for C7 at the concrete billboard queue. -/
theorem sort_billboards_by_depth_witness :
    ∃ L, (sortQueue sampleViewer sampleBillboardQueue).findLayer 0 = some L ∧
      (∀ me ∈ L.billboards, me.1.depthSortingEnabled = true →
        me.2.billboards.Sorted (billboardBefore sampleViewer)) ∧
      (∀ mat : Material, mat.depthSortingEnabled = false →
        findA L.billboards mat =
          findA (sampleBillboardQueue.getLayerD 0).billboards mat) :=
  sort_billboards_by_depth sampleViewer sampleBillboardQueue 0
    (sampleBillboardQueue.getLayerD 0) (by decide)

/-! ## C2 -/

/-- What C2 asserts of one alpha-blending AddMesh call: the submission
is appended to the transparent lists of the layer with bounding sphere
centred at the world translation plus the AABB centre and radius field
the squared bounding radius of the AABB, and the opaque, sprite and
billboard batch maps of the layer are untouched. -/
def addMeshTransparentSpec (q : ForwardRenderQueue) (renderOrder : Int)
    (material : Material) (meshData : MeshData) (meshAABB : Boxf)
    (transformMatrix : Matrix4f) : Prop :=
  ((addMesh q renderOrder material meshData meshAABB
      transformMatrix).getLayerD renderOrder).transparentModelData =
    (q.getLayerD renderOrder).transparentModelData ++
      [⟨material, meshData,
        ⟨(transformMatrix.GetTranslation).add meshAABB.GetCenter,
          meshAABB.GetSquaredRadius⟩, transformMatrix⟩] ∧
  ((addMesh q renderOrder material meshData meshAABB
      transformMatrix).getLayerD renderOrder).transparentModels =
    (q.getLayerD renderOrder).transparentModels ++
      [(q.getLayerD renderOrder).transparentModelData.length] ∧
  ((addMesh q renderOrder material meshData meshAABB
      transformMatrix).getLayerD renderOrder).opaqueModels =
    (q.getLayerD renderOrder).opaqueModels ∧
  ((addMesh q renderOrder material meshData meshAABB
      transformMatrix).getLayerD renderOrder).basicSprites =
    (q.getLayerD renderOrder).basicSprites ∧
  ((addMesh q renderOrder material meshData meshAABB
      transformMatrix).getLayerD renderOrder).billboards =
    (q.getLayerD renderOrder).billboards

/-- C2: every AddMesh call whose material has alpha blending enabled
appends to the transparent list of the layer, with bounding sphere
centre the world translation plus the AABB centre and squared radius
the squared bounding radius of the AABB, and creates or modifies no
opaque batch entry. -/
theorem addMesh_transparent_appends (q : ForwardRenderQueue)
    (renderOrder : Int) (material : Material) (meshData : MeshData)
    (meshAABB : Boxf) (transformMatrix : Matrix4f)
    (hb : material.blendEnabled = true) :
    addMeshTransparentSpec q renderOrder material meshData meshAABB
      transformMatrix := by
  unfold addMeshTransparentSpec addMesh
  rw [if_pos hb]
  unfold withLayer ForwardRenderQueue.getLayerD
  simp only [findA_upsertA_self, Option.getD_some]
  exact ⟨trivial, trivial, trivial, trivial, trivial⟩

/-- Witness for C2 at a concrete transparent submission. -/
theorem addMesh_transparent_appends_witness :
    addMeshTransparentSpec ForwardRenderQueue.empty 0
      sampleTransparentMaterial sampleMeshData pointBox (translateZ 10) :=
  addMesh_transparent_appends ForwardRenderQueue.empty 0
    sampleTransparentMaterial sampleMeshData pointBox (translateZ 10)
    (by decide)

/-! ## C8 -/

/-- A sprite material used by the C8 witness. -/
def sampleSpriteMaterial : Material := ⟨4, false, false⟩

/-- Two distinct overlay textures. -/
def sampleTextureA : Texture := ⟨7⟩

/-- Second overlay texture. -/
def sampleTextureB : Texture := ⟨8⟩

/-- Sprites under two distinct overlay textures of one material. -/
def sampleSpriteQueue : ForwardRenderQueue :=
  addSprites
    (addSprites ForwardRenderQueue.empty 0 sampleSpriteMaterial 11 1
      (some sampleTextureA))
    0 sampleSpriteMaterial 12 2 (some sampleTextureB)

/-- C8: after OnTextureInvalidation, in every layer and every sprite
material batch exactly the overlay bucket keyed by that texture is
removed; every other overlay bucket and every non-sprite category of
the layer is unchanged. -/
theorem textureInvalidation_removes_exact_bucket :
    ∀ (q : ForwardRenderQueue) (texture : Texture) (k : Int) (L0 : Layer),
      q.findLayer k = some L0 →
      ∃ L, (onTextureInvalidation q texture).findLayer k = some L ∧
        L.opaqueModels = L0.opaqueModels ∧
        L.billboards = L0.billboards ∧
        L.transparentModels = L0.transparentModels ∧
        L.transparentModelData = L0.transparentModelData ∧
        L.otherDrawables = L0.otherDrawables ∧
        L.clearCount = L0.clearCount ∧
        (∀ (mat : Material) (e0 : BatchedBasicSpriteEntry),
          findA L0.basicSprites mat = some e0 →
          ∃ e, findA L.basicSprites mat = some e ∧
            e.enabled = e0.enabled ∧
            e.materialReleaseSlot = e0.materialReleaseSlot ∧
            findA e.overlayMap (some texture) = none ∧
            ∀ key : Option Texture, key ≠ some texture →
              findA e.overlayMap key = findA e0.overlayMap key) ∧
        (∀ mat : Material, findA L0.basicSprites mat = none →
          findA L.basicSprites mat = none) := by
  intro q texture k L0 h0
  refine ⟨{ L0 with
              basicSprites := mapValsA
                (fun e =>
                  { e with overlayMap := eraseA e.overlayMap (some texture) })
                L0.basicSprites },
    ?_, rfl, rfl, rfl, rfl, rfl, rfl, ?_, ?_⟩
  · unfold ForwardRenderQueue.findLayer at h0 ⊢
    unfold onTextureInvalidation
    rw [findA_mapValsA, h0]
    rfl
  · intro mat e0 he0
    refine ⟨{ e0 with overlayMap := eraseA e0.overlayMap (some texture) },
      ?_, rfl, rfl, ?_, ?_⟩
    · dsimp only
      rw [findA_mapValsA, he0]
      rfl
    · exact findA_eraseA_self _ _
    · intro key hkey
      exact findA_eraseA_ne _ _ _ hkey
  · intro mat hmat
    dsimp only
    rw [findA_mapValsA, hmat]
    rfl

/-- Witness for C8 at the two-overlay sprite queue. -/
theorem textureInvalidation_removes_exact_bucket_witness :
    ∃ L, (onTextureInvalidation sampleSpriteQueue
        sampleTextureA).findLayer 0 = some L ∧
      L.opaqueModels = (sampleSpriteQueue.getLayerD 0).opaqueModels ∧
      L.billboards = (sampleSpriteQueue.getLayerD 0).billboards ∧
      L.transparentModels = (sampleSpriteQueue.getLayerD 0).transparentModels ∧
      L.transparentModelData =
        (sampleSpriteQueue.getLayerD 0).transparentModelData ∧
      L.otherDrawables = (sampleSpriteQueue.getLayerD 0).otherDrawables ∧
      L.clearCount = (sampleSpriteQueue.getLayerD 0).clearCount ∧
      (∀ (mat : Material) (e0 : BatchedBasicSpriteEntry),
        findA (sampleSpriteQueue.getLayerD 0).basicSprites mat = some e0 →
        ∃ e, findA L.basicSprites mat = some e ∧
          e.enabled = e0.enabled ∧
          e.materialReleaseSlot = e0.materialReleaseSlot ∧
          findA e.overlayMap (some sampleTextureA) = none ∧
          ∀ key : Option Texture, key ≠ some sampleTextureA →
            findA e.overlayMap key = findA e0.overlayMap key) ∧
      (∀ mat : Material,
        findA (sampleSpriteQueue.getLayerD 0).basicSprites mat = none →
        findA L.basicSprites mat = none) :=
  textureInvalidation_removes_exact_bucket sampleSpriteQueue sampleTextureA 0
    (sampleSpriteQueue.getLayerD 0) (by decide)

/-! ## C4 -/

/-- A queue in which the alpha-blending material is referenced both by
a billboard batch (so its release subscription exists) and by a
transparent submission. -/
def sampleInvalidationQueue : ForwardRenderQueue :=
  addMesh
    (addBillboard ForwardRenderQueue.empty 0 sampleTransparentMaterial
      ⟨0, 0, 1⟩ ⟨1, 1⟩ ⟨0, 1⟩ Color.white)
    0 sampleTransparentMaterial sampleMeshData pointBox (translateZ 10)

/-- Counterexample to C4 as stated: after OnMaterialInvalidation the
transparent model data of the layer still holds an entry referencing
the invalidated material, so iteration over the layer does find a
reference to it (the handler only erases the three batch maps). -/
theorem materialInvalidation_leaves_transparent_reference :
    ((onMaterialInvalidation sampleInvalidationQueue
        sampleTransparentMaterial).getLayerD 0).transparentModelData.map
      (fun d => d.material) = [sampleTransparentMaterial] := by
  decide

/-- C4 (amended): after OnMaterialInvalidation the material is absent
as a key from the opaque-model, sprite and billboard batch maps of
every layer; entries of the transparent list may still reference it
until the next lightweight clear. -/
theorem materialInvalidation_erases_batch_keys :
    ∀ (q : ForwardRenderQueue) (material : Material) (k : Int) (L : Layer),
      (onMaterialInvalidation q material).findLayer k = some L →
      findA L.opaqueModels material = none ∧
      findA L.basicSprites material = none ∧
      findA L.billboards material = none := by
  intro q material k L hL
  unfold onMaterialInvalidation ForwardRenderQueue.findLayer at hL
  rw [findA_mapValsA] at hL
  cases hf : findA q.layers k with
  | none =>
      rw [hf] at hL
      exact absurd hL (by simp)
  | some L0 =>
      rw [hf] at hL
      obtain rfl : L = _ := by simpa using hL.symm
      exact ⟨findA_eraseA_self _ _, findA_eraseA_self _ _,
        findA_eraseA_self _ _⟩

/-- Witness for the amended C4 at the concrete queue. -/
theorem materialInvalidation_erases_batch_keys_witness :
    findA ((onMaterialInvalidation sampleInvalidationQueue
        sampleTransparentMaterial).getLayerD 0).opaqueModels
      sampleTransparentMaterial = none ∧
    findA ((onMaterialInvalidation sampleInvalidationQueue
        sampleTransparentMaterial).getLayerD 0).basicSprites
      sampleTransparentMaterial = none ∧
    findA ((onMaterialInvalidation sampleInvalidationQueue
        sampleTransparentMaterial).getLayerD 0).billboards
      sampleTransparentMaterial = none :=
  materialInvalidation_erases_batch_keys sampleInvalidationQueue
    sampleTransparentMaterial 0
    ((onMaterialInvalidation sampleInvalidationQueue
      sampleTransparentMaterial).getLayerD 0) (by decide)

/-! ## C6 -/

/-- Counterexample to C6 as stated: with a supplied alpha array the
source folds alpha with a truncating float-to-UInt8 cast, not with
rounding; at alpha = 1/2 the appended entry has colour alpha 127 while
round(255 x 1/2) = 128. -/
theorem billboard_alpha_truncates_not_rounds :
    ((addBillboardsSinCosAlpha ForwardRenderQueue.empty 0
        samplePlainMaterial 1 (fun _ => ⟨0, 0, 0⟩) (fun _ => ⟨1, 1⟩) none
        (some (fun _ => 1 / 2))).getLayerD 0).billboards =
      [(samplePlainMaterial,
        ⟨[⟨⟨255, 255, 255, 127⟩, ⟨0, 0, 0⟩, ⟨1, 1⟩, ⟨0, 1⟩⟩], true⟩)] ∧
    ((127 : ℤ) ≠ round ((255 : ℚ) * (1 / 2))) := by
  constructor
  · decide
  · rw [round_eq]
    norm_num

/-- C6 (amended): in AddBillboards a null rotation pointer yields
sinCos (0, 1) for every appended entry, a null colour pointer yields
opaque white, a null alpha pointer yields colour alpha 255, and a
supplied alpha value is folded into an RGBA colour whose alpha is the
truncating UInt8 cast of 255 times the alpha (not its rounding). -/
theorem addBillboards_defaults :
    (∀ (count : ℕ) (posPtr : ℕ → Vector3f) (sizePtr : ℕ → Vector2f)
        (colorPtr : Option (ℕ → Color)),
      ∀ d ∈ billboardRangeSinCosColor count posPtr sizePtr none colorPtr,
        d.sinCos = ⟨0, 1⟩) ∧
    (∀ (count : ℕ) (posPtr : ℕ → Vector3f) (sizePtr : ℕ → Vector2f)
        (alphaPtr : Option (ℕ → ℚ)),
      ∀ d ∈ billboardRangeSinCosAlpha count posPtr sizePtr none alphaPtr,
        d.sinCos = ⟨0, 1⟩) ∧
    (∀ (count : ℕ) (posPtr : ℕ → Vector3f) (sizePtr : ℕ → Vector2f)
        (sinCosPtr : Option (ℕ → Vector2f)),
      ∀ d ∈ billboardRangeSinCosColor count posPtr sizePtr sinCosPtr none,
        d.color = Color.white) ∧
    (∀ (count : ℕ) (posPtr : ℕ → Vector3f) (sizePtr : ℕ → Vector2f)
        (sinCosPtr : Option (ℕ → Vector2f)),
      ∀ d ∈ billboardRangeSinCosAlpha count posPtr sizePtr sinCosPtr none,
        d.color.a = 255) ∧
    (∀ (count : ℕ) (posPtr : ℕ → Vector3f) (sizePtr : ℕ → Vector2f)
        (sinCosPtr : Option (ℕ → Vector2f)) (alphaF : ℕ → ℚ) (i : ℕ),
      i < count →
      (billboardRangeSinCosAlpha count posPtr sizePtr sinCosPtr
          (some alphaF)).getD i ⟨Color.white, ⟨0, 0, 0⟩, ⟨0, 0⟩, ⟨0, 1⟩⟩ =
        ⟨⟨255, 255, 255, castUInt8 (255 * alphaF i)⟩,
          posPtr i, sizePtr i, (sinCosPtr.getD (fun _ => ⟨0, 1⟩)) i⟩) := by
  refine ⟨?_, ?_, ?_, ?_, ?_⟩
  · intro count posPtr sizePtr colorPtr d hd
    rcases List.mem_map.mp hd with ⟨i, _, hi⟩
    rw [← hi]
    rfl
  · intro count posPtr sizePtr alphaPtr d hd
    rcases List.mem_map.mp hd with ⟨i, _, hi⟩
    rw [← hi]
    rfl
  · intro count posPtr sizePtr sinCosPtr d hd
    rcases List.mem_map.mp hd with ⟨i, _, hi⟩
    rw [← hi]
    rfl
  · intro count posPtr sizePtr sinCosPtr d hd
    rcases List.mem_map.mp hd with ⟨i, _, hi⟩
    rw [← hi]
    show castUInt8 (255 * 1) = 255
    decide
  · intro count posPtr sizePtr sinCosPtr alphaF i hi
    unfold billboardRangeSinCosAlpha
    rw [List.getD_eq_getElem?_getD, List.getElem?_map,
      List.getElem?_range hi]
    rfl

/-- Witness for C6 at concrete inputs. -/
theorem addBillboards_defaults_witness :
    ((billboardRangeSinCosAlpha 1 (fun _ => ⟨0, 0, 0⟩) (fun _ => ⟨1, 1⟩)
        none (some (fun _ => 1 / 2))).getD 0
        ⟨Color.white, ⟨0, 0, 0⟩, ⟨0, 0⟩, ⟨0, 1⟩⟩ =
      ⟨⟨255, 255, 255, castUInt8 (255 * (1 / 2 : ℚ))⟩, ⟨0, 0, 0⟩, ⟨1, 1⟩,
        ⟨0, 1⟩⟩) :=
  addBillboards_defaults.2.2.2.2 1 (fun _ => ⟨0, 0, 0⟩) (fun _ => ⟨1, 1⟩)
    none (fun _ => 1 / 2) 0 (by decide)

/-! ## C10 -/

/-- C10: AddBillboards with count 0 and a material absent from the
layer still creates an empty billboard batch entry keyed by that
material, with its material release subscription connected. -/
theorem addBillboards_zero_count_creates_batch :
    ∀ (q : ForwardRenderQueue) (renderOrder : Int) (mat : Material)
      (posPtr : ℕ → Vector3f) (sizePtr : ℕ → Vector2f)
      (sinCosPtr : Option (ℕ → Vector2f)) (colorPtr : Option (ℕ → Color)),
      findA ((q.getLayerD renderOrder).billboards) mat = none →
      findA (((addBillboardsSinCosColor q renderOrder mat 0 posPtr sizePtr
          sinCosPtr colorPtr).getLayerD renderOrder).billboards) mat =
        some ⟨[], true⟩ := by
  intro q renderOrder mat posPtr sizePtr sinCosPtr colorPtr habs
  simp only [ForwardRenderQueue.getLayerD] at habs
  simp only [addBillboardsSinCosColor, appendBillboards, withLayer,
    ForwardRenderQueue.getLayerD, findA_upsertA_self, Option.getD_some]
  simp [habs, billboardRangeSinCosColor, BatchedBillboardEntry.new]

/-- Witness for C10 on the empty queue. -/
theorem addBillboards_zero_count_creates_batch_witness :
    findA (((addBillboardsSinCosColor ForwardRenderQueue.empty 0
        samplePlainMaterial 0 (fun _ => ⟨0, 0, 0⟩) (fun _ => ⟨1, 1⟩)
        none none).getLayerD 0).billboards) samplePlainMaterial =
      some ⟨[], true⟩ :=
  addBillboards_zero_count_creates_batch ForwardRenderQueue.empty 0
    samplePlainMaterial (fun _ => ⟨0, 0, 0⟩) (fun _ => ⟨1, 1⟩) none none
    (by decide)

/-! ## Lemmas about Clear(false) -/

theorem findA_eq_none_of_not_mem_keys {κ ν : Type} [DecidableEq κ]
    {m : List (κ × ν)} {k : κ} (h : k ∉ m.map Prod.fst) :
    findA m k = none := by
  induction m with
  | nil => rfl
  | cons kv rest ih =>
      cases kv with
      | mk k1 v =>
          simp only [List.map, List.mem_cons, not_or] at h
          have h1 : k1 ≠ k := fun hh => h.1 hh.symm
          simp [findA, h1, ih h.2]

theorem clearLayers_keys_sublist (m : List (Int × Layer)) :
    ((clearLayers m).map Prod.fst).Sublist (m.map Prod.fst) := by
  induction m with
  | nil => exact List.Sublist.refl _
  | cons kv rest ih =>
      cases kv with
      | mk k1 L1 =>
          by_cases h : 100 ≤ L1.clearCount
          · simp only [clearLayers, if_pos h]
            exact ih.cons _
          · simp only [clearLayers, if_neg h, List.map]
            exact ih.cons₂ _

theorem clear_false_keys_nodup (q : ForwardRenderQueue)
    (h : (q.layers.map Prod.fst).Nodup) :
    (((clear q false).layers).map Prod.fst).Nodup := by
  unfold clear
  simp only [Bool.false_eq_true, if_neg]
  exact List.Nodup.sublist (clearLayers_keys_sublist q.layers) h

theorem findA_clearLayers_of_lt {m : List (Int × Layer)} {k : Int}
    {L : Layer} (h : findA m k = some L) (hc : L.clearCount < 100) :
    findA (clearLayers m) k = some L.lightClear := by
  induction m with
  | nil => exact absurd h (by simp [findA])
  | cons kv rest ih =>
      cases kv with
      | mk k1 L1 =>
          by_cases h1 : k1 = k
          · have hL : L1 = L := by
              simpa [findA, h1] using h
            subst hL
            have hcc : ¬100 ≤ L1.clearCount := not_le.mpr hc
            simp [clearLayers, hcc, findA, h1]
          · have h2 : findA rest k = some L := by
              simpa [findA, h1] using h
            by_cases hcc : 100 ≤ L1.clearCount
            · simp only [clearLayers, if_pos hcc]
              exact ih h2
            · simp only [clearLayers, if_neg hcc]
              simpa [findA, h1] using ih h2

theorem findA_clearLayers_none {m : List (Int × Layer)} {k : Int}
    (h : findA m k = none) : findA (clearLayers m) k = none := by
  induction m with
  | nil => rfl
  | cons kv rest ih =>
      cases kv with
      | mk k1 L1 =>
          by_cases h1 : k1 = k
          · exact absurd h (by simp [findA, h1])
          · have h2 : findA rest k = none := by
              simpa [findA, h1] using h
            by_cases hcc : 100 ≤ L1.clearCount
            · simp only [clearLayers, if_pos hcc]
              exact ih h2
            · simp only [clearLayers, if_neg hcc]
              simpa [findA, h1] using ih h2

theorem findA_clearLayers_of_ge {m : List (Int × Layer)} {k : Int}
    {L : Layer} (hnd : (m.map Prod.fst).Nodup) (h : findA m k = some L)
    (hc : 100 ≤ L.clearCount) : findA (clearLayers m) k = none := by
  induction m with
  | nil => exact absurd h (by simp [findA])
  | cons kv rest ih =>
      cases kv with
      | mk k1 L1 =>
          simp only [List.map, List.nodup_cons] at hnd
          by_cases h1 : k1 = k
          · have hL : L1 = L := by
              simpa [findA, h1] using h
            subst hL
            simp only [clearLayers, if_pos hc]
            apply findA_clearLayers_none
            apply findA_eq_none_of_not_mem_keys
            rw [← h1]
            exact hnd.1
          · have h2 : findA rest k = some L := by
              simpa [findA, h1] using h
            by_cases hcc : 100 ≤ L1.clearCount
            · simp only [clearLayers, if_pos hcc]
              exact ih hnd.2 h2
            · simp only [clearLayers, if_neg hcc]
              simpa [findA, h1] using ih hnd.2 h2

theorem clear_false_findLayer (q : ForwardRenderQueue) (k : Int) :
    (clear q false).findLayer k = findA (clearLayers q.layers) k := by
  unfold clear ForwardRenderQueue.findLayer
  simp

theorem clear_iterate_present (q : ForwardRenderQueue) (k : Int)
    (L : Layer) (hL : q.findLayer k = some L) (hc : L.clearCount = 0) :
    ∀ n : ℕ, 1 ≤ n → n ≤ 100 →
      ((fun qq => clear qq false)^[n] q).findLayer k = some
        { L with
          otherDrawables := []
          transparentModels := []
          transparentModelData := []
          clearCount := n } := by
  intro n
  induction n with
  | zero => omega
  | succ m ih =>
      intro _ hle
      rw [Function.iterate_succ_apply', clear_false_findLayer]
      by_cases hm : 1 ≤ m
      · have hstate := ih hm (by omega)
        unfold ForwardRenderQueue.findLayer at hstate
        have hlt : ({ L with
            otherDrawables := []
            transparentModels := []
            transparentModelData := []
            clearCount := m } : Layer).clearCount < 100 := by
          show m < 100
          omega
        rw [findA_clearLayers_of_lt hstate hlt]
        rfl
      · have hm0 : m = 0 := by omega
        subst hm0
        unfold ForwardRenderQueue.findLayer at hL
        have hlt : L.clearCount < 100 := by omega
        rw [Function.iterate_zero_apply, findA_clearLayers_of_lt hL hlt]
        unfold Layer.lightClear
        rw [hc]

theorem clear_iterate_nodup (q : ForwardRenderQueue)
    (h : (q.layers.map Prod.fst).Nodup) :
    ∀ n : ℕ,
      ((((fun qq => clear qq false)^[n] q).layers).map Prod.fst).Nodup := by
  intro n
  induction n with
  | zero => simpa using h
  | succ m ih =>
      rw [Function.iterate_succ_apply']
      exact clear_false_keys_nodup _ ih

/-! ## C5 -/

/-- C5: repeated Clear(false) with no intervening submissions empties
the transient contents of a layer on each call while keeping the
persistent opaque, sprite and billboard batch maps, and removes the
layer once the count of consecutive idle lightweight clears has
reached the threshold 100 (the layer survives clears 1 through 100 and
is gone from the 101st call on). -/
theorem clear_idle_layer_lifecycle :
    ∀ (q : ForwardRenderQueue) (k : Int) (L : Layer),
      (q.layers.map Prod.fst).Nodup →
      q.findLayer k = some L →
      L.clearCount = 0 →
      (∀ n : ℕ, 1 ≤ n → n ≤ 100 →
        ((fun qq => clear qq false)^[n] q).findLayer k = some
          { L with
            otherDrawables := []
            transparentModels := []
            transparentModelData := []
            clearCount := n }) ∧
      (∀ n : ℕ, 101 ≤ n →
        ((fun qq => clear qq false)^[n] q).findLayer k = none) := by
  intro q k L hnd hL hc
  have hpresent := clear_iterate_present q k L hL hc
  refine ⟨hpresent, ?_⟩
  have h101 : ((fun qq => clear qq false)^[101] q).findLayer k = none := by
    have h100 := hpresent 100 (by omega) (by omega)
    have hnd100 := clear_iterate_nodup q hnd 100
    unfold ForwardRenderQueue.findLayer at h100
    rw [show (101 : ℕ) = 100 + 1 from rfl, Function.iterate_succ_apply',
      clear_false_findLayer]
    exact findA_clearLayers_of_ge hnd100 h100 (le_refl 100)
  have habsent : ∀ m : ℕ,
      ((fun qq => clear qq false)^[101 + m] q).findLayer k = none := by
    intro m
    induction m with
    | zero => simpa using h101
    | succ mm ih =>
        rw [show 101 + (mm + 1) = (101 + mm) + 1 by omega,
          Function.iterate_succ_apply', clear_false_findLayer]
        unfold ForwardRenderQueue.findLayer at ih
        exact findA_clearLayers_none ih
  intro n hn
  obtain ⟨m, rfl⟩ : ∃ m, n = 101 + m := ⟨n - 101, by omega⟩
  exact habsent m

/-- Witness for C5 at the concrete billboard queue: after one
lightweight clear the layer is present and reset, after 101 lightweight
clears it is gone. -/
theorem clear_idle_layer_lifecycle_witness :
    (∀ n : ℕ, 1 ≤ n → n ≤ 100 →
      ((fun qq => clear qq false)^[n] sampleBillboardQueue).findLayer 0 =
        some
          { (sampleBillboardQueue.getLayerD 0) with
            otherDrawables := []
            transparentModels := []
            transparentModelData := []
            clearCount := n }) ∧
    (∀ n : ℕ, 101 ≤ n →
      ((fun qq => clear qq false)^[n] sampleBillboardQueue).findLayer 0 =
        none) :=
  clear_idle_layer_lifecycle sampleBillboardQueue 0
    (sampleBillboardQueue.getLayerD 0) (by decide) (by decide) (by decide)

/-! ## C3 -/

/-- One AddMesh invocation, used to quantify over call sequences. -/
structure AddMeshCall where
  renderOrder : Int
  material : Material
  meshData : MeshData
  meshAABB : Boxf
  transformMatrix : Matrix4f

/-- Fold a sequence of AddMesh calls over a queue. -/
def runAddMesh (q : ForwardRenderQueue) (calls : List AddMeshCall) :
    ForwardRenderQueue :=
  calls.foldl (fun qq c =>
    addMesh qq c.renderOrder c.material c.meshData c.meshAABB
      c.transformMatrix) q

/-- The relation C3 intends per opaque batch entry, corrected to the
per-material granularity of the source: the instancing flag of a
material entry is set exactly when some mesh entry of that material has
accumulated at least the minimum instance count. -/
def opaqueFlagInvEntry (e : BatchedModelEntry) : Prop :=
  e.instancingEnabled = true ↔
    ∃ mdme ∈ e.meshMap,
      instancingMinInstancesCount ≤ mdme.2.instances.length

/-- The invariant over the whole queue. -/
def opaqueFlagInv (q : ForwardRenderQueue) : Prop :=
  ∀ kL ∈ q.layers, ∀ me ∈ kL.2.opaqueModels, opaqueFlagInvEntry me.2

theorem addMeshToModelEntry_meshMap (md : MeshData) (aabb : Boxf)
    (tm : Matrix4f) (e : BatchedModelEntry) :
    (addMeshToModelEntry md aabb tm e).meshMap =
      upsertA md (MeshInstanceEntry.new md aabb)
        (fun ie => { ie with instances := ie.instances ++ [tm] })
        e.meshMap := rfl

theorem addMeshToModelEntry_flag (md : MeshData) (aabb : Boxf)
    (tm : Matrix4f) (e : BatchedModelEntry) :
    (addMeshToModelEntry md aabb tm e).instancingEnabled =
      (e.instancingEnabled || decide (instancingMinInstancesCount ≤
        ((findA e.meshMap md).getD
          (MeshInstanceEntry.new md aabb)).instances.length + 1)) := by
  unfold addMeshToModelEntry
  simp [findA_upsertA_self]

theorem addMeshToModelEntry_flagInv (md : MeshData) (aabb : Boxf)
    (tm : Matrix4f) (e : BatchedModelEntry)
    (he : opaqueFlagInvEntry e) :
    opaqueFlagInvEntry (addMeshToModelEntry md aabb tm e) := by
  unfold opaqueFlagInvEntry at he ⊢
  rw [addMeshToModelEntry_flag, addMeshToModelEntry_meshMap]
  constructor
  · intro h
    rcases Bool.or_eq_true_iff.mp h with h1 | h2
    · rcases he.mp h1 with ⟨x, hx, hcnt⟩
      rcases exists_mem_upsertA_of_mem (k := md)
          (d := MeshInstanceEntry.new md aabb)
          (f := fun ie => { ie with instances := ie.instances ++ [tm] })
          hx with ⟨y, hy, _, hv⟩
      refine ⟨y, hy, ?_⟩
      rcases hv with hv | hv
      · rw [hv]
        exact hcnt
      · rw [hv]
        simp only [List.length_append, List.length_cons, List.length_nil]
        omega
    · have hcnt := of_decide_eq_true h2
      refine ⟨(md, _), findA_mem (findA_upsertA_self e.meshMap md
        (MeshInstanceEntry.new md aabb)
        (fun ie => { ie with instances := ie.instances ++ [tm] })), ?_⟩
      simp only [List.length_append, List.length_cons, List.length_nil]
      omega
  · rintro ⟨y, hy, hcnt⟩
    rcases mem_upsertA hy with hin | heq
    · exact Bool.or_eq_true_iff.mpr (Or.inl (he.mpr ⟨y, hin, hcnt⟩))
    · refine Bool.or_eq_true_iff.mpr (Or.inr (decide_eq_true ?_))
      rw [heq] at hcnt
      simp only [List.length_append, List.length_cons, List.length_nil]
        at hcnt ⊢
      omega

/-- The freshly created opaque batch entry satisfies the corrected
relation: flag unset, no mesh entries. -/
theorem opaqueFlagInvEntry_new : opaqueFlagInvEntry BatchedModelEntry.new := by
  unfold opaqueFlagInvEntry BatchedModelEntry.new
  simp

theorem addMesh_preserves_opaqueFlagInv (q : ForwardRenderQueue)
    (ro : Int) (mat : Material) (md : MeshData) (aabb : Boxf)
    (tm : Matrix4f) (hb : mat.blendEnabled = false)
    (h : opaqueFlagInv q) :
    opaqueFlagInv (addMesh q ro mat md aabb tm) := by
  intro kL hkL me hme
  unfold addMesh at hkL
  rw [if_neg (by simp [hb])] at hkL
  unfold withLayer at hkL
  rcases mem_upsertA hkL with hin | heq
  · exact h _ hin _ hme
  · have hme2 : me ∈ upsertA mat BatchedModelEntry.new
        (addMeshToModelEntry md aabb tm)
        ((findA q.layers ro).getD Layer.new).opaqueModels := by
      rw [heq] at hme
      exact hme
    rcases mem_upsertA hme2 with hin2 | heq2
    · cases hf : findA q.layers ro with
      | none =>
          rw [hf] at hin2
          exact absurd hin2 (by simp [Layer.new])
      | some L0 =>
          rw [hf] at hin2
          exact h _ (findA_mem hf) _ hin2
    · rw [heq2]
      apply addMeshToModelEntry_flagInv
      cases hf2 : findA ((findA q.layers ro).getD Layer.new).opaqueModels
          mat with
      | none =>
          exact opaqueFlagInvEntry_new
      | some e0 =>
          cases hf : findA q.layers ro with
          | none =>
              rw [hf] at hf2
              exact absurd hf2 (by simp [Layer.new, findA])
          | some L0 =>
              rw [hf] at hf2
              exact h _ (findA_mem hf) _ (findA_mem hf2)

theorem runAddMesh_opaqueFlagInv (calls : List AddMeshCall) :
    ∀ q : ForwardRenderQueue,
      (∀ c ∈ calls, c.material.blendEnabled = false) →
      opaqueFlagInv q → opaqueFlagInv (runAddMesh q calls) := by
  induction calls with
  | nil =>
      intro q _ hq
      exact hq
  | cons c rest ih =>
      intro q hall hq
      have hstep := addMesh_preserves_opaqueFlagInv q c.renderOrder
        c.material c.meshData c.meshAABB c.transformMatrix
        (hall c (List.mem_cons_self _ _)) hq
      exact ih _ (fun c2 hc2 => hall c2 (List.mem_cons_of_mem _ hc2)) hstep

/-- The empty queue satisfies the invariant vacuously. -/
theorem opaqueFlagInv_empty : opaqueFlagInv ForwardRenderQueue.empty := by
  intro kL hkL
  exact absurd hkL (List.not_mem_nil kL)

/-- An opaque material and a second mesh, used by the C3
counterexample. -/
def opaqueMaterial : Material := ⟨5, false, false⟩

/-- A second mesh under the same material. -/
def meshB : MeshData := ⟨none, 2, 0⟩

/-- One hundred submissions of the first mesh followed by a single
submission of a second mesh, all under one opaque material. -/
def manyCalls : List AddMeshCall :=
  List.replicate 100
      ⟨0, opaqueMaterial, sampleMeshData, pointBox, Matrix4f.identity⟩ ++
    [⟨0, opaqueMaterial, meshB, pointBox, Matrix4f.identity⟩]

/-- The queue after running those calls. -/
def c3Queue : ForwardRenderQueue :=
  runAddMesh ForwardRenderQueue.empty manyCalls

/-- Counterexample to C3 as stated: the instancing flag lives on the
material entry, not on the (material, meshData) pair; after 100
submissions of one mesh and one submission of a second mesh under the
same material, the entry flag is true although the second mesh entry
has accumulated only 1 instance, below the threshold of 100. -/
theorem instancing_flag_not_per_mesh :
    ((findA ((c3Queue.getLayerD 0).opaqueModels) opaqueMaterial).map
        (fun e => e.instancingEnabled)) = some true ∧
    (((findA ((c3Queue.getLayerD 0).opaqueModels) opaqueMaterial).bind
        (fun e => findA e.meshMap meshB)).map
       (fun ie => ie.instances.length)) = some 1 ∧
    1 < instancingMinInstancesCount := by
  decide

/-- C3 (amended): for every sequence of AddMesh calls with
non-alpha-blending materials starting from the empty queue, the
instancing flag of each opaque material entry is true exactly when
some mesh entry of that material has accumulated at least the
minimum-instances-for-batching threshold. -/
theorem addMesh_instancing_flag_iff_reached :
    ∀ calls : List AddMeshCall,
      (∀ c ∈ calls, c.material.blendEnabled = false) →
      ∀ kL ∈ (runAddMesh ForwardRenderQueue.empty calls).layers,
        ∀ me ∈ kL.2.opaqueModels,
          (me.2.instancingEnabled = true ↔
            ∃ mdme ∈ me.2.meshMap,
              instancingMinInstancesCount ≤ mdme.2.instances.length) :=
  fun calls hall =>
    runAddMesh_opaqueFlagInv calls ForwardRenderQueue.empty hall
      opaqueFlagInv_empty

/-- A two-call sequence used by the C3 witness. -/
def c3WitnessCalls : List AddMeshCall :=
  [⟨0, opaqueMaterial, sampleMeshData, pointBox, Matrix4f.identity⟩,
   ⟨0, opaqueMaterial, meshB, pointBox, Matrix4f.identity⟩]

/-- The queue after the two-call sequence. -/
def c3WitnessQueue : ForwardRenderQueue :=
  runAddMesh ForwardRenderQueue.empty c3WitnessCalls

/-- Witness for the amended C3 at the two-call sequence, instantiated
at the single material entry of layer 0. -/
theorem addMesh_instancing_flag_iff_reached_witness :
    (((c3WitnessQueue.getLayerD 0).opaqueModels.getD 0
        (opaqueMaterial, BatchedModelEntry.new)).2.instancingEnabled = true ↔
      ∃ mdme ∈ ((c3WitnessQueue.getLayerD 0).opaqueModels.getD 0
          (opaqueMaterial, BatchedModelEntry.new)).2.meshMap,
        instancingMinInstancesCount ≤ mdme.2.instances.length) :=
  addMesh_instancing_flag_iff_reached c3WitnessCalls (by decide)
    (0, c3WitnessQueue.getLayerD 0) (by decide)
    ((c3WitnessQueue.getLayerD 0).opaqueModels.getD 0
      (opaqueMaterial, BatchedModelEntry.new)) (by decide)

/-! ## C9 -/

/-- One public queue operation, used to quantify over everything the
queue can do within a frame. -/
inductive QueueOp where
  | billboardOp (renderOrder : Int) (material : Material)
      (position : Vector3f) (size : Vector2f) (sinCos : Vector2f)
      (color : Color)
  | billboardsColorOp (renderOrder : Int) (material : Material) (count : ℕ)
      (positionPtr : ℕ → Vector3f) (sizePtr : ℕ → Vector2f)
      (sinCosPtr : Option (ℕ → Vector2f)) (colorPtr : Option (ℕ → Color))
  | billboardsAlphaOp (renderOrder : Int) (material : Material) (count : ℕ)
      (positionPtr : ℕ → Vector3f) (sizePtr : ℕ → Vector2f)
      (sinCosPtr : Option (ℕ → Vector2f)) (alphaPtr : Option (ℕ → ℚ))
  | drawableOp (renderOrder : Int) (drawable : Option ℕ)
  | meshOp (renderOrder : Int) (material : Material) (meshData : MeshData)
      (meshAABB : Boxf) (transformMatrix : Matrix4f)
  | spritesOp (renderOrder : Int) (material : Material) (vertices : ℕ)
      (spriteCount : ℕ) (overlay : Option Texture)
  | clearOp (fully : Bool)
  | sortOp (viewer : Viewer)
  | materialInvalidationOp (material : Material)
  | textureInvalidationOp (texture : Texture)
  | indexBufferInvalidationOp (indexBuffer : ℕ)
  | vertexBufferInvalidationOp (vertexBuffer : ℕ)

/-- Dispatch of a queue operation to its model. -/
def applyOp (op : QueueOp) (q : ForwardRenderQueue) : ForwardRenderQueue :=
  match op with
  | .billboardOp ro mat pos size sc c => addBillboard q ro mat pos size sc c
  | .billboardsColorOp ro mat n p s sc c =>
      addBillboardsSinCosColor q ro mat n p s sc c
  | .billboardsAlphaOp ro mat n p s sc a =>
      addBillboardsSinCosAlpha q ro mat n p s sc a
  | .drawableOp ro d => addDrawable q ro d
  | .meshOp ro mat md aabb tm => addMesh q ro mat md aabb tm
  | .spritesOp ro mat v n o => addSprites q ro mat v n o
  | .clearOp fully => clear q fully
  | .sortOp v => sortQueue v q
  | .materialInvalidationOp m => onMaterialInvalidation q m
  | .textureInvalidationOp t => onTextureInvalidation q t
  | .indexBufferInvalidationOp ib => onIndexBufferInvalidation q ib
  | .vertexBufferInvalidationOp vb => onVertexBufferInvalidation q vb

/-- The opaque batch entry of a (layer, material) pair, when present. -/
def findOpaqueEntry (q : ForwardRenderQueue) (k : Int) (mat : Material) :
    Option BatchedModelEntry :=
  (q.findLayer k).bind (fun L => findA L.opaqueModels mat)

theorem findLayer_withLayer_self (q : ForwardRenderQueue) (ro : Int)
    (g : Layer → Layer) :
    (withLayer q ro g).findLayer ro =
      some (g { (q.getLayerD ro) with clearCount := 0 }) := by
  unfold withLayer ForwardRenderQueue.findLayer ForwardRenderQueue.getLayerD
  rw [findA_upsertA_self]

theorem findLayer_withLayer_ne (q : ForwardRenderQueue) (ro : Int)
    (g : Layer → Layer) (k : Int) (h : k ≠ ro) :
    (withLayer q ro g).findLayer k = q.findLayer k := by
  unfold withLayer ForwardRenderQueue.findLayer
  exact findA_upsertA_ne _ _ _ _ _ h

theorem findOpaqueEntry_withLayer (q : ForwardRenderQueue) (ro : Int)
    (g : Layer → Layer) (hg : ∀ L, (g L).opaqueModels = L.opaqueModels)
    (k : Int) (mat : Material) :
    findOpaqueEntry (withLayer q ro g) k mat = findOpaqueEntry q k mat := by
  unfold findOpaqueEntry
  by_cases hk : k = ro
  · subst hk
    rw [findLayer_withLayer_self]
    show findA (g _).opaqueModels mat = _
    rw [hg]
    show findA (q.getLayerD k).opaqueModels mat = _
    unfold ForwardRenderQueue.getLayerD ForwardRenderQueue.findLayer
    cases findA q.layers k with
    | none => rfl
    | some L0 => rfl
  · rw [findLayer_withLayer_ne q ro g k hk]

theorem findOpaqueEntry_sortQueue (v : Viewer) (q : ForwardRenderQueue)
    (k : Int) (mat : Material) :
    findOpaqueEntry (sortQueue v q) k mat = findOpaqueEntry q k mat := by
  unfold findOpaqueEntry sortQueue ForwardRenderQueue.findLayer
  rw [findA_mapValsA]
  cases findA q.layers k with
  | none => rfl
  | some L => rfl

theorem findOpaqueEntry_onTextureInvalidation (q : ForwardRenderQueue)
    (t : Texture) (k : Int) (mat : Material) :
    findOpaqueEntry (onTextureInvalidation q t) k mat =
      findOpaqueEntry q k mat := by
  unfold findOpaqueEntry onTextureInvalidation ForwardRenderQueue.findLayer
  rw [findA_mapValsA]
  cases findA q.layers k with
  | none => rfl
  | some L => rfl

theorem findOpaqueEntry_onMaterialInvalidation_ne (q : ForwardRenderQueue)
    (m : Material) (k : Int) (mat : Material) (hm : mat ≠ m) :
    findOpaqueEntry (onMaterialInvalidation q m) k mat =
      findOpaqueEntry q k mat := by
  unfold findOpaqueEntry onMaterialInvalidation ForwardRenderQueue.findLayer
  rw [findA_mapValsA]
  cases findA q.layers k with
  | none => rfl
  | some L =>
      show findA (eraseA L.opaqueModels m) mat = findA L.opaqueModels mat
      exact findA_eraseA_ne _ _ _ hm

theorem findOpaqueEntry_onIndexBufferInvalidation (q : ForwardRenderQueue)
    (ib : ℕ) (k : Int) (mat : Material) :
    findOpaqueEntry (onIndexBufferInvalidation q ib) k mat =
      (findOpaqueEntry q k mat).map (fun e =>
        { e with
          meshMap := e.meshMap.filter
            (fun kv => kv.1.indexBuffer ≠ some ib) }) := by
  unfold findOpaqueEntry onIndexBufferInvalidation
    ForwardRenderQueue.findLayer
  rw [findA_mapValsA]
  cases findA q.layers k with
  | none => rfl
  | some L =>
      simp only [Option.map_some', Option.some_bind]
      rw [findA_mapValsA]

theorem findOpaqueEntry_onVertexBufferInvalidation (q : ForwardRenderQueue)
    (vb : ℕ) (k : Int) (mat : Material) :
    findOpaqueEntry (onVertexBufferInvalidation q vb) k mat =
      (findOpaqueEntry q k mat).map (fun e =>
        { e with
          meshMap := e.meshMap.filter
            (fun kv => kv.1.vertexBuffer ≠ vb) }) := by
  unfold findOpaqueEntry onVertexBufferInvalidation
    ForwardRenderQueue.findLayer
  rw [findA_mapValsA]
  cases findA q.layers k with
  | none => rfl
  | some L =>
      simp only [Option.map_some', Option.some_bind]
      rw [findA_mapValsA]

/-- C9: within a frame the instancing flag of an opaque batch entry is
monotone: for every single queue operation, if the entry of a (layer,
material) pair had its flag set before the operation and the pair still
has an entry afterwards, that entry's flag is still set; the only ways
the flag can disappear are dropping the entry itself (resource
invalidation, layer removal) or Clear(fully = true), where no entry
remains at all. -/
theorem instancing_flag_monotonic :
    ∀ (op : QueueOp) (q : ForwardRenderQueue) (k : Int) (mat : Material)
      (e e1 : BatchedModelEntry),
      (q.layers.map Prod.fst).Nodup →
      findOpaqueEntry q k mat = some e →
      e.instancingEnabled = true →
      findOpaqueEntry (applyOp op q) k mat = some e1 →
      e1.instancingEnabled = true := by
  intro op q k mat e e1 hnd he hflag he1
  obtain ⟨L, hL, heL⟩ : ∃ L, q.findLayer k = some L ∧
      findA L.opaqueModels mat = some e := by
    unfold findOpaqueEntry at he
    cases hq : q.findLayer k with
    | none =>
        rw [hq] at he
        exact absurd he (by simp)
    | some L =>
        rw [hq] at he
        exact ⟨L, rfl, by simpa using he⟩
  cases op with
  | billboardOp ro mat2 pos size sc c =>
      have hpres : findOpaqueEntry
          (applyOp (QueueOp.billboardOp ro mat2 pos size sc c) q) k mat =
          findOpaqueEntry q k mat := by
        refine findOpaqueEntry_withLayer q ro _ ?_ k mat
        intro L2
        rfl
      rw [hpres, he] at he1
      rw [(Option.some.inj he1).symm]
      exact hflag
  | billboardsColorOp ro mat2 n p s sc c =>
      have hpres : findOpaqueEntry
          (applyOp (QueueOp.billboardsColorOp ro mat2 n p s sc c) q) k mat =
          findOpaqueEntry q k mat := by
        refine findOpaqueEntry_withLayer q ro _ ?_ k mat
        intro L2
        rfl
      rw [hpres, he] at he1
      rw [(Option.some.inj he1).symm]
      exact hflag
  | billboardsAlphaOp ro mat2 n p s sc a =>
      have hpres : findOpaqueEntry
          (applyOp (QueueOp.billboardsAlphaOp ro mat2 n p s sc a) q) k mat =
          findOpaqueEntry q k mat := by
        refine findOpaqueEntry_withLayer q ro _ ?_ k mat
        intro L2
        rfl
      rw [hpres, he] at he1
      rw [(Option.some.inj he1).symm]
      exact hflag
  | drawableOp ro d =>
      cases d with
      | none =>
          have hpres : findOpaqueEntry
              (applyOp (QueueOp.drawableOp ro none) q) k mat =
              findOpaqueEntry q k mat := rfl
          rw [hpres, he] at he1
          rw [(Option.some.inj he1).symm]
          exact hflag
      | some dd =>
          have hpres : findOpaqueEntry
              (applyOp (QueueOp.drawableOp ro (some dd)) q) k mat =
              findOpaqueEntry q k mat := by
            refine findOpaqueEntry_withLayer q ro _ ?_ k mat
            intro L2
            rfl
          rw [hpres, he] at he1
          rw [(Option.some.inj he1).symm]
          exact hflag
  | spritesOp ro mat2 v n o =>
      have hpres : findOpaqueEntry
          (applyOp (QueueOp.spritesOp ro mat2 v n o) q) k mat =
          findOpaqueEntry q k mat := by
        refine findOpaqueEntry_withLayer q ro _ ?_ k mat
        intro L2
        rfl
      rw [hpres, he] at he1
      rw [(Option.some.inj he1).symm]
      exact hflag
  | sortOp v =>
      have he1b : findOpaqueEntry (sortQueue v q) k mat = some e1 := he1
      rw [findOpaqueEntry_sortQueue, he] at he1b
      rw [(Option.some.inj he1b).symm]
      exact hflag
  | textureInvalidationOp t =>
      have he1b : findOpaqueEntry (onTextureInvalidation q t) k mat =
          some e1 := he1
      rw [findOpaqueEntry_onTextureInvalidation, he] at he1b
      rw [(Option.some.inj he1b).symm]
      exact hflag
  | materialInvalidationOp m =>
      have he1b : findOpaqueEntry (onMaterialInvalidation q m) k mat =
          some e1 := he1
      by_cases hm : mat = m
      · subst hm
        unfold findOpaqueEntry onMaterialInvalidation
          ForwardRenderQueue.findLayer at he1b
        rw [findA_mapValsA] at he1b
        rw [show findA q.layers k = some L from hL] at he1b
        simp only [Option.map_some', Option.some_bind] at he1b
        rw [show findA (eraseA L.opaqueModels mat) mat = none from
          findA_eraseA_self _ _] at he1b
        exact absurd he1b (by simp)
      · rw [findOpaqueEntry_onMaterialInvalidation_ne q m k mat hm, he]
          at he1b
        rw [(Option.some.inj he1b).symm]
        exact hflag
  | indexBufferInvalidationOp ib =>
      have he1b : findOpaqueEntry (onIndexBufferInvalidation q ib) k mat =
          some e1 := he1
      rw [findOpaqueEntry_onIndexBufferInvalidation, he] at he1b
      simp only [Option.map_some'] at he1b
      rw [(Option.some.inj he1b).symm]
      exact hflag
  | vertexBufferInvalidationOp vb =>
      have he1b : findOpaqueEntry (onVertexBufferInvalidation q vb) k mat =
          some e1 := he1
      rw [findOpaqueEntry_onVertexBufferInvalidation, he] at he1b
      simp only [Option.map_some'] at he1b
      rw [(Option.some.inj he1b).symm]
      exact hflag
  | clearOp fully =>
      cases fully with
      | true =>
          have he1b : findOpaqueEntry (ForwardRenderQueue.mk []) k mat =
              some e1 := he1
          exact absurd he1b
            (by simp [findOpaqueEntry, ForwardRenderQueue.findLayer, findA])
      | false =>
          have he1b : findOpaqueEntry (clear q false) k mat = some e1 := he1
          unfold findOpaqueEntry at he1b
          rw [clear_false_findLayer] at he1b
          by_cases hc : 100 ≤ L.clearCount
          · rw [findA_clearLayers_of_ge hnd hL hc] at he1b
            exact absurd he1b (by simp)
          · rw [findA_clearLayers_of_lt hL (by omega)] at he1b
            simp only [Option.some_bind] at he1b
            have he1c : findA L.opaqueModels mat = some e1 := he1b
            rw [heL] at he1c
            rw [(Option.some.inj he1c).symm]
            exact hflag
  | meshOp ro mat2 md aabb tm =>
      have he1b : findOpaqueEntry (addMesh q ro mat2 md aabb tm) k mat =
          some e1 := he1
      by_cases hb : mat2.blendEnabled = true
      · unfold addMesh at he1b
        rw [if_pos hb] at he1b
        have hpres : findOpaqueEntry (withLayer q ro (fun layer =>
            { layer with
              transparentModelData := layer.transparentModelData ++
                [⟨mat2, md,
                  ⟨(tm.GetTranslation).add aabb.GetCenter,
                    aabb.GetSquaredRadius⟩, tm⟩]
              transparentModels := layer.transparentModels ++
                [layer.transparentModelData.length] })) k mat =
            findOpaqueEntry q k mat := by
          refine findOpaqueEntry_withLayer q ro _ ?_ k mat
          intro L2
          rfl
        rw [hpres, he] at he1b
        rw [(Option.some.inj he1b).symm]
        exact hflag
      · unfold addMesh at he1b
        rw [if_neg hb] at he1b
        by_cases hk : k = ro
        · subst hk
          have hgd : q.getLayerD k = L := by
            unfold ForwardRenderQueue.getLayerD
            unfold ForwardRenderQueue.findLayer at hL
            rw [hL]
            rfl
          unfold findOpaqueEntry at he1b
          rw [findLayer_withLayer_self, hgd] at he1b
          simp only [Option.some_bind] at he1b
          have he1c : findA (upsertA mat2 BatchedModelEntry.new
              (addMeshToModelEntry md aabb tm) L.opaqueModels) mat =
              some e1 := he1b
          by_cases hmm : mat = mat2
          · subst hmm
            rw [findA_upsertA_self, heL] at he1c
            simp only [Option.getD_some] at he1c
            rw [(Option.some.inj he1c).symm, addMeshToModelEntry_flag,
              hflag]
            rfl
          · rw [findA_upsertA_ne _ _ _ _ _ hmm, heL] at he1c
            rw [(Option.some.inj he1c).symm]
            exact hflag
        · unfold findOpaqueEntry at he1b
          rw [findLayer_withLayer_ne q ro _ k hk] at he1b
          have he1c : findOpaqueEntry q k mat = some e1 := he1b
          rw [he] at he1c
          rw [(Option.some.inj he1c).symm]
          exact hflag

/-- An opaque batch entry whose instancing flag is already set, used by
the C9 witness. -/
def sampleFlaggedEntry : BatchedModelEntry :=
  ⟨true, true, [(sampleMeshData, ⟨[Matrix4f.identity], ⟨⟨0, 0, 0⟩, 0⟩,
    false, true⟩)], true⟩

/-- A one-layer queue holding that flagged entry. -/
def sampleFlaggedQueue : ForwardRenderQueue :=
  ⟨[(0, { Layer.new with
      opaqueModels := [(opaqueMaterial, sampleFlaggedEntry)] })]⟩

/-- Witness for C9: a Sort keeps the flag of the surviving entry set. -/
theorem instancing_flag_monotonic_witness :
    sampleFlaggedEntry.instancingEnabled = true :=
  instancing_flag_monotonic (QueueOp.sortOp sampleViewer)
    sampleFlaggedQueue 0 opaqueMaterial sampleFlaggedEntry
    sampleFlaggedEntry (by decide) (by decide) (by decide) (by decide)

end Nz
